import Mathlib

/-!
Shallow embedding of the FlexBase route logic (Express/Mongoose social app):
data model from the Mongoose schemas, route handlers as pure functions over
explicit database state (lists of documents), real-time emissions modelled as
values returned alongside the response.  Identifiers (Mongo ObjectIds) are
modelled as naturals; document lookups (`Model.findById`) as `List.find?` on
the id field; `doc.save()` as replacement of the stored document with the
mutated one.
-/

namespace FlexBase

abbrev UserId := Nat
abbrev PostId := Nat
abbrev CollectionId := Nat

/-- Post visibility enum (Post schema: `enum: ['public', 'private', 'followers']`). -/
inductive Visibility where
  | pub
  | priv
  | followers
deriving DecidableEq, Repr

/-- Media type enum (Post schema: `enum: ['image', 'video']`). -/
inductive MediaType where
  | image
  | video
deriving DecidableEq, Repr

/-- A tag subdocument: `{ name: String, type: { type: String, enum: [...] } }`.
The `type` path is optional in the schema, hence `Option`. -/
structure Tag where
  name : String
  type : Option String
deriving DecidableEq, Repr

/-- The allowed values of the Post schema's `tags.type` enum. -/
def tagTypeEnum : List String :=
  ["brand", "category", "year", "rarity", "color", "size"]

/-- A like subdocument: `{ user: ObjectId, createdAt: Date }`. -/
structure Like where
  user : UserId
  createdAt : Nat
deriving DecidableEq, Repr

/-- A comment subdocument: `{ user: ObjectId, text: String, createdAt: Date }`. -/
structure Comment where
  user : UserId
  text : String
  createdAt : Nat
deriving DecidableEq, Repr

/-- A Post document (Post schema). -/
structure Post where
  id : PostId
  user : UserId
  caption : String
  mediaURL : String
  mediaType : MediaType
  tags : List Tag
  likes : List Like
  comments : List Comment
  userCollection : Option CollectionId
  visibility : Visibility
deriving DecidableEq, Repr

/-- A User document.  The User schema file itself only declares the fields;
the fields used by the follow routes are exactly those manipulated in
`routes/users.js`: `followers` and `following`, arrays of user ObjectIds. -/
structure User where
  id : UserId
  username : String
  followers : List UserId
  following : List UserId
deriving DecidableEq, Repr

/-- A UserCollection document (UserCollection schema). -/
structure UserCollection where
  id : CollectionId
  user : UserId
  name : String
  description : String
  category : String
  isPrivate : Bool
  items : List PostId
deriving DecidableEq, Repr

/-- Outcome of a route handler: `ok` carries the success payload, `err`
carries the HTTP status code and the `message` of the JSON error body. -/
inductive ApiResult (α : Type) where
  | ok : α → ApiResult α
  | err : Nat → String → ApiResult α
deriving DecidableEq, Repr

/-- `Post.findById` over the post store. -/
def findPost (db : List Post) (pid : PostId) : Option Post :=
  db.find? (fun p => p.id == pid)

/-- `post.save()`: persist a mutated document, replacing the stored one
with the same id. -/
def savePost (db : List Post) (p : Post) : List Post :=
  db.map (fun q => if q.id == p.id then p else q)

/-- `User.findById` over the user store. -/
def findUser (db : List User) (uid : UserId) : Option User :=
  db.find? (fun u => u.id == uid)

/-- `user.save()`. -/
def saveUser (db : List User) (u : User) : List User :=
  db.map (fun v => if v.id == u.id then u else v)

/-- `UserCollection.findById` over the collection store. -/
def findCollection (db : List UserCollection) (cid : CollectionId) :
    Option UserCollection :=
  db.find? (fun c => c.id == cid)

/-- `collection.save()`. -/
def saveCollection (db : List UserCollection) (c : UserCollection) :
    List UserCollection :=
  db.map (fun d => if d.id == c.id then c else d)

/-- `GET /api/posts/:id` (routes/posts.js).  The route is mounted with no
auth middleware and its body never consults `req.user`: it looks the post
up by id and returns it in full, with no visibility check. -/
def getPostApi (db : List Post) (pid : PostId) : ApiResult Post :=
  match findPost db pid with
  | none => .err 404 "Post not found"
  | some p => .ok p

/-- Data rendered by the `post-detail` page. -/
structure PostPage where
  post : Post
  isLiked : Bool
  isOwner : Bool
deriving DecidableEq, Repr

/-- `GET /post/:id` (routes/views.js).  Mounted with `optionalAuth`, so the
viewer may be anonymous (`none`); the handler uses the viewer only to compute
the `isLiked` / `isOwner` display flags and renders the post in full
regardless of its visibility. -/
def viewPostPage (viewer : Option UserId) (db : List Post) (pid : PostId) :
    ApiResult PostPage :=
  match findPost db pid with
  | none => .err 404 "Post not found"
  | some p =>
      .ok { post := p
            isLiked := match viewer with
              | some u => p.likes.any (fun l => l.user == u)
              | none => false
            isOwner := match viewer with
              | some u => p.user == u
              | none => false }

/-- Response body of the follow route: `{ isFollowing, followersCount }`
(plus the message string). -/
structure FollowResult where
  isFollowing : Bool
  followersCount : Nat
deriving DecidableEq, Repr

/-- `POST /api/users/:id/follow` (routes/users.js).  `actorId` is the
authenticated `req.user._id` (the `auth` middleware guarantees the actor
exists; a missing actor record would crash the handler, surfaced as 500 by
the error middleware).  Looks up the target (404 if absent), rejects
self-follow with 400, then toggles on `currentUser.following.includes(target)`
(Mongoose arrays compare ObjectIds by value): present means unfollow (filter
the id out of both sides), absent means follow (push onto both sides); both
documents are then saved.  The follow branch additionally emits a `follow`
notification to the target's personal room (not modelled in the return
value; no claim concerns it). -/
def followRoute (db : List User) (actorId targetId : UserId) :
    List User × ApiResult FollowResult :=
  match findUser db targetId with
  | none => (db, .err 404 "User not found")
  | some userToFollow =>
    if userToFollow.id == actorId then
      (db, .err 400 "You cannot follow yourself")
    else
      match findUser db actorId with
      | none => (db, .err 500 "Server Error")
      | some currentUser =>
        let isFollowing := currentUser.following.contains userToFollow.id
        if isFollowing then
          let cu := { currentUser with
            following := currentUser.following.filter
              (fun i => !(i == userToFollow.id)) }
          let tg := { userToFollow with
            followers := userToFollow.followers.filter
              (fun i => !(i == currentUser.id)) }
          (saveUser (saveUser db cu) tg,
           .ok { isFollowing := false, followersCount := tg.followers.length })
        else
          let cu := { currentUser with
            following := currentUser.following ++ [userToFollow.id] }
          let tg := { userToFollow with
            followers := userToFollow.followers ++ [currentUser.id] }
          (saveUser (saveUser db cu) tg,
           .ok { isFollowing := true, followersCount := tg.followers.length })

/-- `Array.prototype.findIndex` returning the index of the first element
satisfying `P`, as an `Option Nat` (`none` for JavaScript's `-1`). -/
def findIdxP (P : α → Bool) : List α → Option Nat
  | [] => none
  | x :: xs => if P x then some 0 else (findIdxP P xs).map (· + 1)

/-- Response body of the like route: `{ isLiked, totalLikes }`. -/
structure LikeResult where
  isLiked : Bool
  totalLikes : Nat
deriving DecidableEq, Repr

/-- `POST /api/posts/:id/like` (routes/posts.js), the part acting on the
post found by id.  `likeIndex = post.likes.findIndex(l => l.user == actor)`:
found means unlike (`splice(likeIndex, 1)`), absent means like (push a new
like subdocument, whose `createdAt` defaults to `now`).  The third component
is the target of the `notification` emit: `some` of the owner's personal
room when `post.user != actor && isLiked`, `none` otherwise.  (The
unconditional `post_like` room broadcast carries the same `isLiked` and
`totalLikes` as the response.)  `post.save()` re-runs schema validation; the
`likes` path carries no constraint, so it cannot fail here and is elided. -/
def likeToggle (p : Post) (actor : UserId) (now : Nat) :
    Post × LikeResult × Option UserId :=
  let likeIndex := findIdxP (fun l => l.user == actor) p.likes
  match likeIndex with
  | some i =>
      let p' := { p with likes := p.likes.eraseIdx i }
      (p', { isLiked := false, totalLikes := p'.likes.length }, none)
  | none =>
      let p' := { p with likes := p.likes ++ [{ user := actor, createdAt := now }] }
      (p', { isLiked := true, totalLikes := p'.likes.length },
       if p.user == actor then none else some p.user)

/-- `POST /api/posts/:id/comment` (routes/posts.js).  The express-validator
chain rejects empty text or text over 500 characters with a 400 before the
handler body runs; then the post is looked up (404 if absent), a timestamped
comment is appended and the post saved.  The response carries the newly
created comment and the updated total comment count.  (`post.save()`
re-validates the document; the appended comment satisfies the schema's own
`maxlength: 500`, the same bound the validator just enforced, and no other
path is mutated, so for a schema-valid stored document the re-validation
cannot fail and is elided.) -/
def commentRoute (db : List Post) (actor : UserId) (pid : PostId)
    (text : String) (now : Nat) : List Post × ApiResult (Comment × Nat) :=
  if text.length == 0 || 500 < text.length then
    (db, .err 400 "Validation failed")
  else
    match findPost db pid with
    | none => (db, .err 404 "Post not found")
    | some p =>
        let c : Comment := { user := actor, text := text, createdAt := now }
        let p' := { p with comments := p.comments ++ [c] }
        (savePost db p', .ok (c, p'.comments.length))

/-- Whether one tag subdocument passes the schema's validators: the `type`
path, when set, must belong to `tagTypeEnum` (Mongoose enum validators skip
unset paths). -/
def validTagType (t : Tag) : Bool :=
  match t.type with
  | none => true
  | some s => tagTypeEnum.contains s

/-- Mongoose document validation run by `post.save()`, restricted to the
constrained paths of the Post schema: `caption` required with
`maxlength: 1000`, `mediaURL` required, every `tags.type` in its enum, and
every `comments.text` required with `maxlength: 500`.  (`user` is required
and present by construction; `mediaType` and `visibility` are typed enums
here.) -/
def postValidate (p : Post) : Bool :=
  !(p.caption.length == 0) && p.caption.length ≤ 1000 &&
  !(p.mediaURL.length == 0) &&
  p.tags.all validTagType &&
  p.comments.all (fun c => !(c.text.length == 0) && c.text.length ≤ 500)

/-- A tag as supplied in the request body: `{ name, type? }`. -/
structure InputTag where
  name : String
  type : Option String
deriving DecidableEq, Repr

/-- `tags.map(tag => ({ name: tag.name, type: tag.type || 'general' }))`
from the create-post handler: a missing `type` defaults to `"general"`. -/
def processTags (tags : List InputTag) : List Tag :=
  tags.map (fun t => { name := t.name, type := some (t.type.getD "general") })

/-- `POST /api/posts` (routes/posts.js).  In handler order: the validator
chain (caption non-empty and at most 1000 characters) yields 400; a missing
uploaded file yields 400; a named target collection must exist and belong to
the actor, else 404; tags are normalized by `processTags`; the new Post
document is built (visibility defaulting to public) and saved —
`post.save()` runs `postValidate`, and a schema violation surfaces through
the error middleware as a 400 Mongoose ValidationError; on success the post
id is pushed onto the collection's `items` when a collection was named.
Returns the updated collection store with the response. -/
def createPost (cols : List UserCollection) (actor : UserId) (caption : String)
    (hasMedia : Bool) (mediaIsVideo : Bool) (tags : Option (List InputTag))
    (userCollection : Option CollectionId) (visibility : Option Visibility)
    (newId : PostId) (mediaURL : String) :
    List UserCollection × ApiResult Post :=
  if caption.length == 0 || 1000 < caption.length then
    (cols, .err 400 "Validation failed")
  else if !hasMedia then
    (cols, .err 400 "Media file is required")
  else
    let colMissing : Bool := match userCollection with
      | none => false
      | some cid =>
        (cols.find? (fun c => c.id == cid && c.user == actor)).isNone
    if colMissing then
      (cols, .err 404 "Collection not found or not owned by user")
    else
    let processedTags := match tags with
      | some ts => processTags ts
      | none => []
    let post : Post :=
      { id := newId
        user := actor
        caption := caption
        mediaURL := mediaURL
        mediaType := if mediaIsVideo then .video else .image
        tags := processedTags
        likes := []
        comments := []
        userCollection := userCollection
        visibility := visibility.getD .pub }
    if postValidate post then
      let cols' := match userCollection with
        | some cid =>
            cols.map (fun c =>
              if c.id == cid then { c with items := c.items ++ [post.id] } else c)
        | none => cols
      (cols', .ok post)
    else
      (cols, .err 400 "Post validation failed")

/-- The handler body of `GET /api/collections/:id` (routes/collections.js),
parametrized by whatever identity a preceding middleware would have attached
to `req.user`: 404 when absent, 403 when the collection is private and the
requester is not its authenticated owner, the collection otherwise. -/
def getCollectionHandler (reqUser : Option UserId)
    (cols : List UserCollection) (cid : CollectionId) :
    ApiResult UserCollection :=
  match findCollection cols cid with
  | none => .err 404 "Collection not found"
  | some c =>
      if c.isPrivate &&
         (match reqUser with
          | none => true
          | some u => !(c.user == u)) then
        .err 403 "This collection is private"
      else
        .ok c

/-- `GET /api/collections/:id` as actually mounted: the route lists no
middleware of its own, and none of the application-level middleware
installed in server.js before `app.use('/api/collections', ...)` (helmet,
rate limiter, cors, body parsers, cookie parser, the `req.io` attacher) sets
`req.user`, so the handler always runs with `req.user` undefined, whoever
the caller is. -/
def apiGetCollection (cols : List UserCollection) (cid : CollectionId) :
    ApiResult UserCollection :=
  getCollectionHandler none cols cid

/-- `DELETE /api/collections/:id` (routes/collections.js): 404 when absent,
403 when the actor is not the owner; otherwise
`Post.updateMany({ userCollection: id }, { $unset: { userCollection: 1 } })`
clears the back-reference on every post pointing at the collection, and
`findByIdAndDelete` removes the collection document. -/
def deleteCollectionRoute (cols : List UserCollection) (posts : List Post)
    (actor : UserId) (cid : CollectionId) :
    List UserCollection × List Post × ApiResult String :=
  match findCollection cols cid with
  | none => (cols, posts, .err 404 "Collection not found")
  | some c =>
      if !(c.user == actor) then
        (cols, posts, .err 403 "Not authorized to delete this collection")
      else
        let posts' := posts.map (fun p =>
          if p.userCollection == some c.id then { p with userCollection := none }
          else p)
        let cols' := cols.eraseP (fun d => d.id == cid)
        (cols', posts', .ok "Collection deleted successfully")

/-- `POST /api/collections/:id/add-post` (routes/collections.js).  Both
documents are fetched, then in order: 404 for a missing collection, 404 for
a missing post, 403 unless the actor owns the collection, 403 unless the
actor owns the post, 400 when `collection.items.includes(post._id)` (the
post is already a member); otherwise the post id is pushed onto `items`, the
post's `userCollection` back-reference is set, and both documents saved. -/
def addPostRoute (cols : List UserCollection) (posts : List Post)
    (actor : UserId) (cid : CollectionId) (postId : PostId) :
    List UserCollection × List Post × ApiResult String :=
  match findCollection cols cid, findPost posts postId with
  | none, _ => (cols, posts, .err 404 "Collection not found")
  | some _, none => (cols, posts, .err 404 "Post not found")
  | some c, some p =>
      if !(c.user == actor) then
        (cols, posts, .err 403 "Not authorized to modify this collection")
      else if !(p.user == actor) then
        (cols, posts, .err 403 "Can only add your own posts to collections")
      else if c.items.contains p.id then
        (cols, posts, .err 400 "Post is already in this collection")
      else
        let c' := { c with items := c.items ++ [p.id] }
        let p' := { p with userCollection := some c.id }
        (saveCollection cols c', savePost posts p',
         .ok "Post added to collection successfully")

/-! ### Helper lemmas about document stores and list primitives -/

theorem find?_cons_if {α : Type} (p : α → Bool) (a : α) (l : List α) :
    (a :: l).find? p = if p a then some a else l.find? p := by
  cases h : p a <;> simp [List.find?_cons, h]

theorem find?_save_eq {α : Type} (key : α → Nat) (db : List α) (k : Nat)
    (x y : α) (hx : db.find? (fun a => key a == k) = some x) (hy : key y = k) :
    (db.map (fun a => if key a == key y then y else a)).find?
      (fun a => key a == k) = some y := by
  induction db with
  | nil => simp at hx
  | cons a t ih =>
      simp only [List.map_cons, find?_cons_if, beq_iff_eq] at hx ⊢
      by_cases h : key a = k
      · have hay : key a = key y := by rw [h, hy]
        rw [if_pos hay, if_pos hy]
      · have hay : ¬ key a = key y := by rw [hy]; exact h
        rw [if_neg h] at hx
        rw [if_neg hay, if_neg h]
        simpa only [beq_iff_eq] using ih hx

theorem find?_save_ne {α : Type} (key : α → Nat) (db : List α) (k : Nat)
    (x y : α) (hx : db.find? (fun a => key a == k) = some x) (hy : key y ≠ k) :
    (db.map (fun a => if key a == key y then y else a)).find?
      (fun a => key a == k) = some x := by
  induction db with
  | nil => simp at hx
  | cons a t ih =>
      simp only [List.map_cons, find?_cons_if, beq_iff_eq] at hx ⊢
      by_cases h : key a = k
      · have hay : ¬ key a = key y := fun hc => hy (by rw [← hc, h])
        rw [if_pos h] at hx
        rw [if_neg hay, if_pos h]
        exact hx
      · rw [if_neg h] at hx
        by_cases hay : key a = key y
        · rw [if_pos hay, if_neg hy]
          simpa only [beq_iff_eq] using ih hx
        · rw [if_neg hay, if_neg h]
          simpa only [beq_iff_eq] using ih hx

theorem find?_map_id_preserving {α : Type} (key : α → Nat) (f : α → α)
    (hf : ∀ a, key (f a) = key a) (db : List α) (k : Nat) (x : α)
    (hx : db.find? (fun a => key a == k) = some x) :
    (db.map f).find? (fun a => key a == k) = some (f x) := by
  induction db with
  | nil => simp at hx
  | cons a t ih =>
      simp only [List.map_cons, find?_cons_if, beq_iff_eq, hf] at hx ⊢
      by_cases h : key a = k
      · rw [if_pos h] at hx
        rw [if_pos h]
        injection hx with hx
        rw [hx]
      · rw [if_neg h] at hx
        rw [if_neg h]
        exact ih hx

theorem findPost_savePost_eq (db : List Post) (k : PostId) (x y : Post)
    (hx : findPost db k = some x) (hy : y.id = k) :
    findPost (savePost db y) k = some y :=
  find?_save_eq Post.id db k x y hx hy

theorem findUser_saveUser_eq (db : List User) (k : UserId) (x y : User)
    (hx : findUser db k = some x) (hy : y.id = k) :
    findUser (saveUser db y) k = some y :=
  find?_save_eq User.id db k x y hx hy

theorem findUser_saveUser_ne (db : List User) (k : UserId) (x y : User)
    (hx : findUser db k = some x) (hy : y.id ≠ k) :
    findUser (saveUser db y) k = some x :=
  find?_save_ne User.id db k x y hx hy

theorem findIdxP_none_all {α : Type} (P : α → Bool) (xs : List α)
    (h : findIdxP P xs = none) : ∀ x ∈ xs, P x = false := by
  induction xs with
  | nil => simp
  | cons a t ih =>
      simp only [findIdxP] at h
      by_cases ha : P a = true
      · simp [ha] at h
      · have ha' : P a = false := by simpa using ha
        rw [if_neg ha] at h
        have ht : findIdxP P t = none := by
          cases hft : findIdxP P t with
          | none => rfl
          | some j => rw [hft] at h; simp at h
        intro x hx
        rcases List.mem_cons.mp hx with rfl | hx
        · exact ha'
        · exact ih ht x hx

theorem findIdxP_all_none {α : Type} (P : α → Bool) (xs : List α)
    (h : ∀ x ∈ xs, P x = false) : findIdxP P xs = none := by
  induction xs with
  | nil => rfl
  | cons a t ih =>
      simp only [findIdxP]
      rw [if_neg (by simp [h a (List.mem_cons_self a t)])]
      rw [ih (fun x hx => h x (List.mem_cons_of_mem a hx))]
      rfl

theorem findIdxP_append_cons {α : Type} (P : α → Bool) (ys : List α) (z : α)
    (zs : List α) (hys : ∀ x ∈ ys, P x = false) (hz : P z = true) :
    findIdxP P (ys ++ z :: zs) = some ys.length := by
  induction ys with
  | nil => simp [findIdxP, hz]
  | cons a t ih =>
      have h1 : P a = false := hys a (List.mem_cons_self a t)
      have h2 := ih (fun x hx => hys x (List.mem_cons_of_mem a hx))
      simp [findIdxP, h1, h2]

theorem findIdxP_some_decomp {α : Type} (P : α → Bool) (xs : List α) (i : Nat)
    (h : findIdxP P xs = some i) :
    ∃ ys z zs, xs = ys ++ z :: zs ∧ ys.length = i ∧
      (∀ x ∈ ys, P x = false) ∧ P z = true := by
  induction xs generalizing i with
  | nil => simp [findIdxP] at h
  | cons a t ih =>
      simp only [findIdxP] at h
      by_cases ha : P a = true
      · rw [if_pos ha] at h
        injection h with h
        exact ⟨[], a, t, by simp, by simp [h], by simp, ha⟩
      · rw [if_neg ha] at h
        cases hft : findIdxP P t with
        | none => rw [hft] at h; simp at h
        | some j =>
            rw [hft] at h
            injection h with h
            obtain ⟨ys, z, zs, h1, h2, h3, h4⟩ := ih j hft
            refine ⟨a :: ys, z, zs, by simp [h1], by simp [h2, h], ?_, h4⟩
            intro x hx
            rcases List.mem_cons.mp hx with rfl | hx
            · simpa using ha
            · exact h3 x hx

theorem eraseIdx_append_cons {α : Type} (ys : List α) (z : α) (zs : List α) :
    (ys ++ z :: zs).eraseIdx ys.length = ys ++ zs := by
  induction ys with
  | nil => rfl
  | cons y t ih => simp [List.eraseIdx, ih]

theorem any_eq_false_of_all_false {α : Type} (P : α → Bool) (xs : List α)
    (h : ∀ x ∈ xs, P x = false) : xs.any P = false := by
  simp only [List.any_eq_false]
  intro x hx
  simp [h x hx]

/-- Evaluation of the like toggle when the actor has no like on the post:
the like branch runs. -/
theorem likeToggle_eval_like (p : Post) (u : UserId) (t : Nat)
    (h : ∀ l ∈ p.likes, (l.user == u) = false) :
    likeToggle p u t =
      ({ p with likes := p.likes ++ [{ user := u, createdAt := t }] },
       { isLiked := true, totalLikes := p.likes.length + 1 },
       if p.user == u then none else some p.user) := by
  unfold likeToggle
  rw [findIdxP_all_none _ _ h]
  simp

/-- Evaluation of the like toggle when the actor's like is present (the list
splits around its first occurrence): the unlike branch runs. -/
theorem likeToggle_eval_unlike (p : Post) (u : UserId) (t : Nat)
    (ys : List Like) (z : Like) (zs : List Like)
    (hl : p.likes = ys ++ z :: zs)
    (hys : ∀ l ∈ ys, (l.user == u) = false) (hz : (z.user == u) = true) :
    likeToggle p u t =
      ({ p with likes := ys ++ zs },
       { isLiked := false, totalLikes := (ys ++ zs).length },
       none) := by
  unfold likeToggle
  rw [hl, findIdxP_append_cons _ ys z zs hys hz]
  simp [eraseIdx_append_cons]

/-! ### Claims -/

/-- A private post owned by user 7, used as the concrete input for claim C1. -/
def cPrivatePost : Post :=
  { id := 1
    user := 7
    caption := "secret find"
    mediaURL := "/uploads/posts/m.jpg"
    mediaType := .image
    tags := []
    likes := []
    comments := []
    userCollection := none
    visibility := .priv }

/-- C1, counterexample: the claim says a viewer other than the owner — here
an anonymous one — gets a not-found or forbidden result for a private post
and never the content; on the code, the API route (which runs with no
identity attached for every caller) and the page route with an anonymous
viewer both return the private post's full content. -/
theorem c1_private_post_leaked :
    cPrivatePost.visibility = Visibility.priv ∧
    getPostApi [cPrivatePost] 1 = .ok cPrivatePost ∧
    viewPostPage none [cPrivatePost] 1 =
      .ok { post := cPrivatePost, isLiked := false, isOwner := false } :=
  ⟨rfl, rfl, rfl⟩

/-- C1, amended: single-post retrieval applies no visibility check at all.
Whenever a post with the requested id exists, `GET /api/posts/:id` returns
it in full (the route receives no caller identity, so every caller —
anonymous, non-owner or owner — gets the same answer), and the `/post/:id`
page renders its full content to every viewer, whatever the post's
visibility. -/
theorem c1_no_visibility_check (db : List Post) (pid : PostId) (p : Post)
    (viewer : Option UserId) (h : findPost db pid = some p) :
    getPostApi db pid = .ok p ∧
    ∃ page : PostPage, viewPostPage viewer db pid = .ok page ∧ page.post = p := by
  constructor
  · simp [getPostApi, h]
  · refine ⟨{ post := p
              isLiked := match viewer with
                | some u => p.likes.any (fun l => l.user == u)
                | none => false
              isOwner := match viewer with
                | some u => p.user == u
                | none => false }, ?_, rfl⟩
    simp [viewPostPage, h]

/-- Witness for `c1_no_visibility_check` at a concrete private post and an
anonymous viewer. -/
theorem c1_no_visibility_check_witness :
    getPostApi [cPrivatePost] 1 = .ok cPrivatePost ∧
    ∃ page : PostPage, viewPostPage none [cPrivatePost] 1 = .ok page ∧
      page.post = cPrivatePost :=
  c1_no_visibility_check [cPrivatePost] 1 cPrivatePost none rfl

/-- C4 (code bug): a create-post request whose tag list has an entry with no
type is rejected with a 400 validation error, not stored: the handler
defaults the missing tag type to `"general"`, but the Post schema's
`tags.type` enum does not contain `"general"`, so `post.save()` fails
validation.  The three conjuncts exhibit the failing request, the handler's
own defaulting, and the enum's rejection of the default. -/
theorem c4_default_tag_type_rejected :
    createPost [] 1 "my kicks" true false
        (some [{ name := "nike", type := none }]) none none 10
        "/uploads/posts/1.jpg" =
      ([], .err 400 "Post validation failed") ∧
    processTags [{ name := "nike", type := none }] =
      [{ name := "nike", type := some "general" }] ∧
    tagTypeEnum.contains "general" = false := by
  refine ⟨?_, rfl, ?_⟩ <;> decide

/-- C5: a follow-toggle request by a user targeting itself is rejected with
a 400 validation error, and the user store — hence both relationship sets —
is returned unchanged. -/
theorem c5_self_follow_rejected (db : List User) (u : UserId) (target : User)
    (h : findUser db u = some target) :
    followRoute db u u = (db, .err 400 "You cannot follow yourself") := by
  unfold followRoute
  rw [h]
  have h' : db.find? (fun v => v.id == u) = some target := h
  have hid := List.find?_some h'
  change (target.id == u) = true at hid
  simp [hid]

/-- Witness for `c5_self_follow_rejected` on a concrete one-user store. -/
theorem c5_self_follow_rejected_witness :
    followRoute [{ id := 5, username := "eve", followers := [], following := [] }] 5 5 =
      ([{ id := 5, username := "eve", followers := [], following := [] }],
       .err 400 "You cannot follow yourself") :=
  c5_self_follow_rejected _ 5
    { id := 5, username := "eve", followers := [], following := [] } rfl

/-- C10: for every stored collection whose `isPrivate` flag is set, the
mounted `GET /api/collections/:id` route answers 403 — to every caller,
the owner included, because no middleware on this route ever attaches an
authenticated identity to the request. -/
theorem c10_private_collection_forbidden (cols : List UserCollection)
    (cid : CollectionId) (c : UserCollection)
    (hc : findCollection cols cid = some c) (hpriv : c.isPrivate = true) :
    apiGetCollection cols cid = .err 403 "This collection is private" := by
  unfold apiGetCollection getCollectionHandler
  rw [hc]
  simp [hpriv]

/-- Witness for `c10_private_collection_forbidden`: a private collection
owned by user 3; the request (as issued by anyone — there is no way to
present an identity this route would read, so this covers the owner's own
request) is answered 403. -/
theorem c10_private_collection_forbidden_witness :
    apiGetCollection
      [{ id := 9, user := 3, name := "vault", description := "",
         category := "art", isPrivate := true, items := [] }] 9 =
      .err 403 "This collection is private" :=
  c10_private_collection_forbidden _ 9
    { id := 9, user := 3, name := "vault", description := "",
      category := "art", isPrivate := true, items := [] } rfl rfl

theorem findUser_id (db : List User) (k : UserId) (x : User)
    (h : findUser db k = some x) : x.id = k := by
  have h' : db.find? (fun v => v.id == k) = some x := h
  have hb := List.find?_some h'
  change (x.id == k) = true at hb
  exact beq_iff_eq.mp hb

theorem findPost_id (db : List Post) (k : PostId) (x : Post)
    (h : findPost db k = some x) : x.id = k := by
  have h' : db.find? (fun v => v.id == k) = some x := h
  have hb := List.find?_some h'
  change (x.id == k) = true at hb
  exact beq_iff_eq.mp hb

theorem findCollection_id (db : List UserCollection) (k : CollectionId)
    (x : UserCollection) (h : findCollection db k = some x) : x.id = k := by
  have h' : db.find? (fun v => v.id == k) = some x := h
  have hb := List.find?_some h'
  change (x.id == k) = true at hb
  exact beq_iff_eq.mp hb

/-- C2: whenever a follow toggle by user `a` on a distinct user `b` completes
successfully, the resulting user store is symmetric for that pair: there are
stored records for `a` and `b`, and `b` is in `a`'s following set exactly
when `a` is in `b`'s followers set — on the follow branch both hold, on the
unfollow branch neither does. -/
theorem c2_follow_symmetric (db db' : List User) (a b : UserId)
    (r : FollowResult) (hab : a ≠ b)
    (h : followRoute db a b = (db', .ok r)) :
    ∃ A B : User, findUser db' a = some A ∧ findUser db' b = some B ∧
      (b ∈ A.following ↔ a ∈ B.followers) := by
  unfold followRoute at h
  cases htb : findUser db b with
  | none => rw [htb] at h; simp at h
  | some target =>
      rw [htb] at h
      dsimp only at h
      have htid : target.id = b := findUser_id db b target htb
      have hne : ¬ ((target.id == a) = true) := by
        simp only [htid, beq_iff_eq]
        exact fun hc => hab hc.symm
      rw [if_neg hne] at h
      cases hta : findUser db a with
      | none => rw [hta] at h; simp at h
      | some currentUser =>
          rw [hta] at h
          dsimp only at h
          have hcid : currentUser.id = a := findUser_id db a currentUser hta
          by_cases hf : currentUser.following.contains target.id = true
          · simp only [hf, if_true] at h
            injection h with h1 h2
            subst h1
            refine ⟨{ currentUser with
                        following := currentUser.following.filter
                          (fun i => !(i == target.id)) },
                    { target with
                        followers := target.followers.filter
                          (fun i => !(i == currentUser.id)) },
                    ?_, ?_, ?_⟩
            · exact findUser_saveUser_ne _ a _ _
                (findUser_saveUser_eq db a currentUser _ hta hcid)
                (by show target.id ≠ a; rw [htid]; exact Ne.symm hab)
            · exact findUser_saveUser_eq _ b target _
                (findUser_saveUser_ne db b target _ htb
                  (by show currentUser.id ≠ b; rw [hcid]; exact hab))
                htid
            · apply iff_of_false
              · intro hmem
                have hx := (List.mem_filter.mp hmem).2
                simp [htid] at hx
              · intro hmem
                have hx := (List.mem_filter.mp hmem).2
                simp [hcid] at hx
          · simp only [hf, if_false] at h
            injection h with h1 h2
            subst h1
            refine ⟨{ currentUser with
                        following := currentUser.following ++ [target.id] },
                    { target with
                        followers := target.followers ++ [currentUser.id] },
                    ?_, ?_, ?_⟩
            · exact findUser_saveUser_ne _ a _ _
                (findUser_saveUser_eq db a currentUser _ hta hcid)
                (by show target.id ≠ a; rw [htid]; exact Ne.symm hab)
            · exact findUser_saveUser_eq _ b target _
                (findUser_saveUser_ne db b target _ htb
                  (by show currentUser.id ≠ b; rw [hcid]; exact hab))
                htid
            · apply iff_of_true
              · simp [List.mem_append, htid]
              · simp [List.mem_append, hcid]

/-- Witness for `c2_follow_symmetric`: user 1 follows user 2 starting from a
fresh two-user store; after the call both directions of the edge exist. -/
theorem c2_follow_symmetric_witness :
    ∃ A B : User,
      findUser [{ id := 1, username := "alice", followers := [], following := [2] },
                { id := 2, username := "bob", followers := [1], following := [] }] 1
        = some A ∧
      findUser [{ id := 1, username := "alice", followers := [], following := [2] },
                { id := 2, username := "bob", followers := [1], following := [] }] 2
        = some B ∧
      (2 ∈ A.following ↔ 1 ∈ B.followers) :=
  c2_follow_symmetric
    [{ id := 1, username := "alice", followers := [], following := [] },
     { id := 2, username := "bob", followers := [], following := [] }]
    [{ id := 1, username := "alice", followers := [], following := [2] },
     { id := 2, username := "bob", followers := [1], following := [] }]
    1 2 { isFollowing := true, followersCount := 1 } (by decide) rfl

/-- C3: under the post invariant that the acting user has at most one like
entry on the post, toggling like twice in succession restores the original
like count and the user's original liked/unliked state, and each of the two
calls responds with the new total like count and the liked state that
results from that call. -/
theorem c3_like_toggle_roundtrip (p : Post) (u : UserId) (t1 t2 : Nat)
    (hdup : (p.likes.filter (fun l => l.user == u)).length ≤ 1) :
    ((likeToggle (likeToggle p u t1).1 u t2).1.likes.length = p.likes.length ∧
     (likeToggle (likeToggle p u t1).1 u t2).1.likes.any (fun l => l.user == u)
       = p.likes.any (fun l => l.user == u)) ∧
    ((likeToggle p u t1).2.1.totalLikes = (likeToggle p u t1).1.likes.length ∧
     (likeToggle p u t1).2.1.isLiked
       = (likeToggle p u t1).1.likes.any (fun l => l.user == u)) ∧
    ((likeToggle (likeToggle p u t1).1 u t2).2.1.totalLikes
       = (likeToggle (likeToggle p u t1).1 u t2).1.likes.length ∧
     (likeToggle (likeToggle p u t1).1 u t2).2.1.isLiked
       = (likeToggle (likeToggle p u t1).1 u t2).1.likes.any
           (fun l => l.user == u)) := by
  cases hf : findIdxP (fun l => l.user == u) p.likes with
  | none =>
      have hall := findIdxP_none_all _ _ hf
      have e1 := likeToggle_eval_like p u t1 hall
      have e2 := likeToggle_eval_unlike
        { p with likes := p.likes ++ [{ user := u, createdAt := t1 }] } u t2
        p.likes { user := u, createdAt := t1 } [] rfl hall (by simp)
      rw [e1]
      dsimp only
      rw [e2]
      dsimp only
      refine ⟨⟨by simp, by simp⟩, ⟨by simp, ?_⟩, ⟨by simp, ?_⟩⟩
      · simp [List.any_append, any_eq_false_of_all_false _ _ hall]
      · simp [any_eq_false_of_all_false _ _ hall]
  | some i =>
      obtain ⟨ys, z, zs, h1, h2, h3, h4⟩ := findIdxP_some_decomp _ _ _ hf
      have hys_filter : ys.filter (fun l => l.user == u) = [] :=
        List.filter_eq_nil_iff.mpr (by intro x hx; simp [h3 x hx])
      have hzs_filter : zs.filter (fun l => l.user == u) = [] := by
        rw [h1, List.filter_append, hys_filter] at hdup
        have hc : (z :: zs.filter (fun l => l.user == u)).length ≤ 1 := by
          simpa [List.filter_cons, h4] using hdup
        have hlen : (zs.filter (fun l => l.user == u)).length = 0 := by
          simp only [List.length_cons] at hc
          omega
        exact List.length_eq_zero.mp hlen
      have hzs : ∀ x ∈ zs, (x.user == u) = false := by
        intro x hx
        have := List.filter_eq_nil_iff.mp hzs_filter x hx
        simpa using this
      have hall2 : ∀ l ∈ ys ++ zs, (l.user == u) = false := by
        intro x hx
        rcases List.mem_append.mp hx with hx | hx
        · exact h3 x hx
        · exact hzs x hx
      have e1 := likeToggle_eval_unlike p u t1 ys z zs h1 h3 h4
      have e2 := likeToggle_eval_like { p with likes := ys ++ zs } u t2 hall2
      rw [e1]
      dsimp only
      rw [e2]
      dsimp only
      refine ⟨⟨?_, ?_⟩, ⟨by simp, ?_⟩, ⟨by simp; omega, ?_⟩⟩
      · rw [h1]
        simp
      · rw [h1]
        simp [List.any_append, List.any_cons, h4]
      · simp [any_eq_false_of_all_false _ _ hall2]
      · simp [List.any_append, any_eq_false_of_all_false _ _ hall2]

/-- A public post with no likes, used as the concrete input for the like
claims' witnesses. -/
def cPlainPost : Post :=
  { id := 2
    user := 4
    caption := "first find"
    mediaURL := "/uploads/posts/n.jpg"
    mediaType := .image
    tags := []
    likes := []
    comments := []
    userCollection := none
    visibility := .pub }

/-- Witness for `c3_like_toggle_roundtrip`: user 9 toggles twice on a post
with no likes. -/
theorem c3_like_toggle_roundtrip_witness :
    ((likeToggle (likeToggle cPlainPost 9 100).1 9 200).1.likes.length
        = cPlainPost.likes.length ∧
     (likeToggle (likeToggle cPlainPost 9 100).1 9 200).1.likes.any
         (fun l => l.user == 9)
       = cPlainPost.likes.any (fun l => l.user == 9)) ∧
    ((likeToggle cPlainPost 9 100).2.1.totalLikes
        = (likeToggle cPlainPost 9 100).1.likes.length ∧
     (likeToggle cPlainPost 9 100).2.1.isLiked
       = (likeToggle cPlainPost 9 100).1.likes.any (fun l => l.user == 9)) ∧
    ((likeToggle (likeToggle cPlainPost 9 100).1 9 200).2.1.totalLikes
        = (likeToggle (likeToggle cPlainPost 9 100).1 9 200).1.likes.length ∧
     (likeToggle (likeToggle cPlainPost 9 100).1 9 200).2.1.isLiked
       = (likeToggle (likeToggle cPlainPost 9 100).1 9 200).1.likes.any
           (fun l => l.user == 9)) :=
  c3_like_toggle_roundtrip cPlainPost 9 100 200 (by decide)

/-- C8: the like route's `notification` emit goes to the post owner's
personal room exactly when the call is a like transition (the actor had no
like entry on the post) and the actor is not the owner; on an unlike or a
self-like it emits nothing. -/
theorem c8_like_notification (p : Post) (u : UserId) (t : Nat) :
    (likeToggle p u t).2.2 =
      if !(p.likes.any (fun l => l.user == u)) && !(p.user == u) then
        some p.user
      else
        none := by
  cases hf : findIdxP (fun l => l.user == u) p.likes with
  | some i =>
      obtain ⟨ys, z, zs, h1, h2, h3, h4⟩ := findIdxP_some_decomp _ _ _ hf
      have hany : p.likes.any (fun l => l.user == u) = true := by
        rw [h1]
        simp [List.any_append, List.any_cons, h4]
      rw [likeToggle_eval_unlike p u t ys z zs h1 h3 h4]
      simp [hany]
  | none =>
      have hall := findIdxP_none_all _ _ hf
      have hany : p.likes.any (fun l => l.user == u) = false :=
        any_eq_false_of_all_false _ _ hall
      rw [likeToggle_eval_like p u t hall]
      simp only [hany]
      cases hpu : p.user == u <;> simp [hpu]

/-- C7: a comment whose text has 501 characters is rejected with a 400
validation error and the post store — hence the post's comment list — is
unchanged; a comment of exactly 500 characters succeeds, the response
carries the new timestamped comment and the incremented total comment
count, and the stored post afterwards is the original with exactly that one
comment appended. -/
theorem c7_comment_length_boundary (db : List Post) (actor : UserId)
    (pid : PostId) (now : Nat) (t1 t2 : String) (p : Post)
    (h1 : t1.length = 501) (h2 : t2.length = 500)
    (hp : findPost db pid = some p) :
    commentRoute db actor pid t1 now = (db, .err 400 "Validation failed") ∧
    ∃ db2, commentRoute db actor pid t2 now =
        (db2, .ok ({ user := actor, text := t2, createdAt := now },
                   p.comments.length + 1)) ∧
      findPost db2 pid =
        some { p with comments :=
                 p.comments ++ [{ user := actor, text := t2, createdAt := now }] } := by
  constructor
  · unfold commentRoute
    rw [if_pos (show (t1.length == 0 || decide (500 < t1.length)) = true by
          simp [h1])]
  · refine ⟨savePost db
        { p with comments :=
            p.comments ++ [{ user := actor, text := t2, createdAt := now }] },
        ?_, ?_⟩
    · unfold commentRoute
      rw [if_neg (show ¬ ((t2.length == 0 || decide (500 < t2.length)) = true) by
            simp [h2])]
      rw [hp]
      simp
    · exact findPost_savePost_eq db pid p _ hp (findPost_id db pid p hp)

/-- Witness for `c7_comment_length_boundary`: concrete 501- and
500-character comment texts against a one-post store. -/
theorem c7_comment_length_boundary_witness :
    commentRoute [cPlainPost] 8 2 (String.mk (List.replicate 501 'a')) 50 =
      ([cPlainPost], .err 400 "Validation failed") ∧
    ∃ db2, commentRoute [cPlainPost] 8 2 (String.mk (List.replicate 500 'a')) 50 =
        (db2, .ok ({ user := 8, text := String.mk (List.replicate 500 'a'),
                     createdAt := 50 },
                   cPlainPost.comments.length + 1)) ∧
      findPost db2 2 =
        some { cPlainPost with comments :=
                 cPlainPost.comments ++
                   [{ user := 8, text := String.mk (List.replicate 500 'a'),
                      createdAt := 50 }] } :=
  c7_comment_length_boundary [cPlainPost] 8 2 50
    (String.mk (List.replicate 501 'a')) (String.mk (List.replicate 500 'a'))
    cPlainPost
    (by show (List.replicate 501 'a').length = 501; rw [List.length_replicate])
    (by show (List.replicate 500 'a').length = 500; rw [List.length_replicate])
    rfl

/-- C6: whenever an owner's delete of a collection succeeds, every post that
referenced the collection is still stored afterwards with the very same
fields except its collection reference, which is cleared — and it is still
retrievable on its own through `GET /api/posts/:id`. -/
theorem c6_delete_collection_detaches (cols : List UserCollection)
    (posts : List Post) (actor : UserId) (cid : CollectionId)
    (cols' : List UserCollection) (posts' : List Post) (msg : String)
    (pid : PostId) (p : Post)
    (h : deleteCollectionRoute cols posts actor cid = (cols', posts', .ok msg))
    (hp : findPost posts pid = some p) (href : p.userCollection = some cid) :
    findPost posts' pid = some { p with userCollection := none } ∧
    getPostApi posts' pid = .ok { p with userCollection := none } := by
  unfold deleteCollectionRoute at h
  cases hc : findCollection cols cid with
  | none => rw [hc] at h; simp at h
  | some c =>
      rw [hc] at h
      dsimp only at h
      by_cases hown : (c.user == actor) = true
      · rw [if_neg (show ¬ ((!(c.user == actor)) = true) by simp [hown])] at h
        injection h with h1 h'
        injection h' with h2 h3
        subst h2
        have hcidv : c.id = cid := findCollection_id cols cid c hc
        have hfmap := find?_map_id_preserving Post.id
          (fun q => if q.userCollection == some c.id then
                      { q with userCollection := none } else q)
          (by intro a
              by_cases hq : (a.userCollection == some c.id) = true <;> simp [hq])
          posts pid p hp
        have hfp : (if p.userCollection == some c.id then
                      { p with userCollection := none } else p) =
            { p with userCollection := none } := by
          rw [href, hcidv]
          simp
        dsimp only at hfmap
        rw [hfp] at hfmap
        refine ⟨hfmap, ?_⟩
        unfold getPostApi
        rw [show findPost (posts.map fun q =>
              if q.userCollection == some c.id then
                { q with userCollection := none } else q) pid =
            some { p with userCollection := none } from hfmap]
      · rw [if_pos (show (!(c.user == actor)) = true by simp [hown])] at h
        simp at h

/-- Witness for `c6_delete_collection_detaches`: owner 4 deletes collection
9, which post 2 references; post 2 survives with its reference cleared. -/
theorem c6_delete_collection_detaches_witness :
    findPost [{ cPlainPost with userCollection := none }] 2 =
      some { { cPlainPost with userCollection := some 9 } with
               userCollection := none } ∧
    getPostApi [{ cPlainPost with userCollection := none }] 2 =
      .ok { { cPlainPost with userCollection := some 9 } with
              userCollection := none } :=
  c6_delete_collection_detaches
    [{ id := 9, user := 4, name := "kicks", description := "",
       category := "sneakers", isPrivate := false, items := [2] }]
    [{ cPlainPost with userCollection := some 9 }] 4 9
    [] [{ cPlainPost with userCollection := none }]
    "Collection deleted successfully" 2
    { cPlainPost with userCollection := some 9 } rfl rfl rfl

/-- C9: with the collection and the post both present, an add-post request
succeeds only when the actor owns both the collection and the post and the
post is not already a member; and a duplicate add (post already in the
owner's collection) is rejected with a 400 error, returning both stores
unchanged. -/
theorem c9_add_post_requirements (cols : List UserCollection)
    (posts : List Post) (actor : UserId) (cid : CollectionId) (pid : PostId)
    (c : UserCollection) (p : Post)
    (hc : findCollection cols cid = some c) (hp : findPost posts pid = some p) :
    ((∃ msg, (addPostRoute cols posts actor cid pid).2.2 = .ok msg) →
        c.user = actor ∧ p.user = actor ∧ ¬ p.id ∈ c.items) ∧
    (c.user = actor → p.user = actor → p.id ∈ c.items →
        addPostRoute cols posts actor cid pid =
          (cols, posts, .err 400 "Post is already in this collection")) := by
  unfold addPostRoute
  rw [hc, hp]
  dsimp only
  constructor
  · rintro ⟨msg, hmsg⟩
    by_cases h1 : (c.user == actor) = true
    · by_cases h2 : (p.user == actor) = true
      · by_cases h3 : c.items.contains p.id = true
        · exfalso
          rw [if_neg (show ¬ ((!(c.user == actor)) = true) by simp [h1]),
              if_neg (show ¬ ((!(p.user == actor)) = true) by simp [h2]),
              if_pos h3] at hmsg
          simp at hmsg
        · refine ⟨beq_iff_eq.mp h1, beq_iff_eq.mp h2, ?_⟩
          intro hmem
          rw [show c.items.contains p.id = true by simpa using hmem] at h3
          exact h3 rfl
      · exfalso
        rw [if_neg (show ¬ ((!(c.user == actor)) = true) by simp [h1]),
            if_pos (show (!(p.user == actor)) = true by simp [h2])] at hmsg
        simp at hmsg
    · exfalso
      rw [if_pos (show (!(c.user == actor)) = true by simp [h1])] at hmsg
      simp at hmsg
  · intro m1 m2 m3
    rw [if_neg (show ¬ ((!(c.user == actor)) = true) by simp [m1]),
        if_neg (show ¬ ((!(p.user == actor)) = true) by simp [m2]),
        if_pos (show c.items.contains p.id = true by simpa using m3)]

/-- Witness for `c9_add_post_requirements`: collection 9 and post 2, both
owned by user 4, with post 2 already a member of the collection. -/
theorem c9_add_post_requirements_witness :
    ((∃ msg, (addPostRoute
        [{ id := 9, user := 4, name := "kicks", description := "",
           category := "sneakers", isPrivate := false, items := [2] }]
        [cPlainPost] 4 9 2).2.2 = .ok msg) →
      (4 : UserId) = 4 ∧ cPlainPost.user = 4 ∧
        ¬ cPlainPost.id ∈ ([2] : List PostId)) ∧
    ((4 : UserId) = 4 → cPlainPost.user = 4 →
      cPlainPost.id ∈ ([2] : List PostId) →
      addPostRoute
          [{ id := 9, user := 4, name := "kicks", description := "",
             category := "sneakers", isPrivate := false, items := [2] }]
          [cPlainPost] 4 9 2 =
        ([{ id := 9, user := 4, name := "kicks", description := "",
            category := "sneakers", isPrivate := false, items := [2] }],
         [cPlainPost], .err 400 "Post is already in this collection")) :=
  c9_add_post_requirements
    [{ id := 9, user := 4, name := "kicks", description := "",
       category := "sneakers", isPrivate := false, items := [2] }]
    [cPlainPost] 4 9 2
    { id := 9, user := 4, name := "kicks", description := "",
      category := "sneakers", isPrivate := false, items := [2] }
    cPlainPost rfl rfl

end FlexBase
